import Mathlib

/-!
Shallow embedding of the CoreMint login-bookkeeping and CRUD-route core
(src/lib/db/user.ts, src/app/api/nfts/route.ts, src/app/api/nfts/mint/route.ts,
src/app/api/collections/route.ts, and the Prisma User schema documented in the
repository's API documentation).

Modelling conventions:
- Prisma's JSON column type is modelled by the inductive `Json`.
- Timestamps (`new Date()`, `toISOString()`) are modelled by a `now : Nat`
  parameter threaded explicitly; `toISOString` becomes the injective
  rendering `tsStr`.
- The Mongo store behind the Prisma client is a `DB` record of append-ordered
  tables.  `prisma.x.findUnique` is `List.find?`, `prisma.x.create` appends,
  and `prisma.x.update where id` rewrites the matching record (throwing,
  i.e. `Except.error`, when no record matches, as Prisma does).
- Record ids that Mongo would auto-assign are supplied as explicit `newId`
  arguments.
- `prisma.user.update` with `loginCount: { increment: 1 }` is an atomic
  server-side increment, so it is modelled as a per-record function of the
  stored value; `addConnectionHistory` by contrast computes the new history
  array client-side from a previously read snapshot and writes that concrete
  array, exactly as the source does.
-/

namespace CoreMint

/-- A JSON value, the type of the Prisma `Json` column `connectionHistory`
and of NFT `metadata`. -/
inductive Json where
  | null : Json
  | bool : Bool → Json
  | num : Int → Json
  | str : String → Json
  | arr : List Json → Json
  | obj : List (String × Json) → Json
deriving Repr

/-- `new Date(now).toISOString()` : an injective rendering of the instant. -/
def tsStr (now : Nat) : String := toString now

/-- JavaScript object-spread update `{ ...fs, k: v }`: if `k` is already a key
its value is replaced in place, otherwise `(k, v)` is appended. -/
def setKey (fs : List (String × Json)) (k : String) (v : Json) : List (String × Json) :=
  if fs.any (fun p => p.1 = k) then
    fs.map (fun p => if p.1 = k then (k, v) else p)
  else
    fs ++ [(k, v)]

/-- The history entry built by `addConnectionHistory`:
`{ ...connectionData, timestamp: new Date().toISOString() }`. -/
def mkEntry (connectionData : List (String × Json)) (now : Nat) : Json :=
  Json.obj (setKey connectionData "timestamp" (Json.str (tsStr now)))

/-- JavaScript `xs.slice(-10)`: the at-most-10 last elements of `xs`. -/
def sliceLast10 (xs : List Json) : List Json := xs.drop (xs.length - 10)

/-- `Array.isArray(h) ? h : []` on a stored JSON history value. -/
def historyList (j : Json) : List Json :=
  match j with
  | Json.arr xs => xs
  | _ => []

/-- The `ClientSessionUser` shape returned by `createUser`: exactly
`{ id, walletAddress }` and nothing else. -/
structure ClientSessionUser where
  id : String
  walletAddress : String
deriving Repr, DecidableEq

/-- A row of the `users` table (Prisma model `User` from the repository's
documented schema: id, walletAddress, createdAt, updatedAt, lastLoginAt,
loginCount default 0, connectionHistory Json).  Note the documented schema
declares `walletAddress String` with no `@unique` attribute. -/
structure User where
  id : String
  walletAddress : String
  createdAt : Nat
  updatedAt : Nat
  lastLoginAt : Option Nat := none
  loginCount : Nat := 0
  connectionHistory : Json
deriving Repr

/-- A row of the `nFT` table. -/
structure NFT where
  id : String
  name : String
  description : Option String := none
  image : String
  metadata : Json
  ownerId : String
  collectionId : Option String := none
  isMinted : Bool := false
  tokenId : Option String := none
  contractAddress : Option String := none
  mintedAt : Option Nat := none
  createdAt : Nat
deriving Repr

/-- A row of the `collection` table. -/
structure Collection where
  id : String
  name : String
  description : Option String := none
  image : Option String := none
  banner : Option String := none
  isPublic : Bool := true
  ownerId : String
  createdAt : Nat
deriving Repr

/-- A row of the `transaction` table. -/
structure Transaction where
  txHash : String
  type : String
  status : String
  userId : String
  nftId : Option String := none
  blockHeight : Option Nat := none
  updatedAt : Nat
deriving Repr

/-- The persistent store behind the shared Prisma client. -/
structure DB where
  users : List User := []
  nfts : List NFT := []
  collections : List Collection := []
  transactions : List Transaction := []
deriving Repr

/-- `prisma.user.update({ where: { id } , ... })` applied pointwise: rewrite
every row whose `id` matches. -/
def updateWhereId (users : List User) (userId : String) (f : User → User) : List User :=
  users.map (fun u => if u.id = userId then f u else u)

/-- src/lib/db/user.ts `findUserByWalletAddress`: `prisma.user.findUnique`
on `walletAddress` (the included `nfts`/`collections` relations are reads of
the other tables and do not affect the user row returned). -/
def findUserByWalletAddress (db : DB) (walletAddress : String) : Option User :=
  db.users.find? (fun u => u.walletAddress = walletAddress)

/-- src/lib/db/user.ts `getUserById`: `prisma.user.findUnique` on `id`. -/
def getUserById (db : DB) (userId : String) : Option User :=
  db.users.find? (fun u => u.id = userId)

/-- src/lib/db/user.ts `createUser`: a plain `prisma.user.create` with
`connectionHistory: []` and the schema defaults (`loginCount` 0,
`lastLoginAt` unset); returns only `{ id, walletAddress }`.  There is no
conflict handling: the row is appended unconditionally. -/
def createUser (db : DB) (walletAddress : String) (newId : String) (now : Nat) :
    DB × ClientSessionUser :=
  let user : User :=
    { id := newId
      walletAddress := walletAddress
      createdAt := now
      updatedAt := now
      lastLoginAt := none
      loginCount := 0
      connectionHistory := Json.arr [] }
  ({ db with users := db.users ++ [user] },
    { id := user.id, walletAddress := user.walletAddress })

/-- src/lib/db/user.ts `updateUserLogin`: `prisma.user.update` setting
`lastLoginAt` to now and atomically incrementing `loginCount` by 1.
Fails (Prisma throws) when no user with that id exists. -/
def updateUserLogin (db : DB) (userId : String) (now : Nat) : Except String DB :=
  match db.users.find? (fun u => u.id = userId) with
  | none => .error "Record to update not found"
  | some _ =>
      .ok { db with
              users := updateWhereId db.users userId (fun w =>
                { w with lastLoginAt := some now
                         loginCount := w.loginCount + 1
                         updatedAt := now }) }

/-- The read phase of `addConnectionHistory`: the `prisma.user.findUnique`
snapshot of the user row. -/
def achSnapshot (db : DB) (userId : String) : Option User :=
  db.users.find? (fun u => u.id = userId)

/-- The write phase of `addConnectionHistory`: computes the updated history
from the previously read `snapshot` (append the new entry, then
`slice(-10)`) and writes that concrete array with `prisma.user.update`. -/
def achCommit (db : DB) (userId : String) (snapshot : User)
    (connectionData : List (String × Json)) (now : Nat) : DB :=
  let history := historyList snapshot.connectionHistory
  let updatedHistory := sliceLast10 (history ++ [mkEntry connectionData now])
  { db with
      users := updateWhereId db.users userId (fun w =>
        { w with connectionHistory := Json.arr updatedHistory }) }

/-- src/lib/db/user.ts `addConnectionHistory`: read the user
(`findUnique`), throw "User not found" if absent, coerce a non-array stored
history to `[]`, append `{ ...connectionData, timestamp }`, keep only the
last 10 entries, and write the result back with `prisma.user.update`. -/
def addConnectionHistory (db : DB) (userId : String)
    (connectionData : List (String × Json)) (now : Nat) : Except String DB :=
  match db.users.find? (fun u => u.id = userId) with
  | none => .error "User not found"
  | some user =>
      let history := historyList user.connectionHistory
      let updatedHistory := sliceLast10 (history ++ [mkEntry connectionData now])
      .ok { db with
              users := updateWhereId db.users userId (fun w =>
                { w with connectionHistory := Json.arr updatedHistory }) }

/-- The stored `loginCount` of the (first) user with the given id, 0 when
absent. -/
def loginCountOf (db : DB) (userId : String) : Nat :=
  match db.users.find? (fun u => u.id = userId) with
  | some u => u.loginCount
  | none => 0

/-- The stored `connectionHistory` of the (first) user with the given id,
`Json.null` when absent. -/
def historyOf (db : DB) (userId : String) : Json :=
  match db.users.find? (fun u => u.id = userId) with
  | some u => u.connectionHistory
  | none => Json.null

/-- The stored `lastLoginAt` of the (first) user with the given id. -/
def lastLoginOf (db : DB) (userId : String) : Option Nat :=
  match db.users.find? (fun u => u.id = userId) with
  | some u => u.lastLoginAt
  | none => none

/-- Iterate `addConnectionHistory` over a list of (connectionData, now)
calls, stopping at the first failure: a sequence of sequential successful
logins recorded for one user. -/
def runHistory (db : DB) (userId : String)
    (calls : List (List (String × Json) × Nat)) : Except String DB :=
  match calls with
  | [] => .ok db
  | c :: rest =>
      match addConnectionHistory db userId c.1 c.2 with
      | .error e => .error e
      | .ok db2 => runHistory db2 userId rest

/-- The history entries a list of calls contributes, in call order. -/
def entriesOf (calls : List (List (String × Json) × Nat)) : List Json :=
  calls.map (fun c => mkEntry c.1 c.2)

theorem length_sliceLast10_le (xs : List Json) : (sliceLast10 xs).length ≤ 10 := by
  simp only [sliceLast10, List.length_drop]
  omega

theorem sliceLast10_of_length_le (xs : List Json) (h : xs.length ≤ 10) :
    sliceLast10 xs = xs := by
  simp only [sliceLast10]
  rw [Nat.sub_eq_zero_of_le h, List.drop_zero]

theorem sliceLast10_append (xs ys : List Json) :
    sliceLast10 (sliceLast10 xs ++ ys) = sliceLast10 (xs ++ ys) := by
  simp only [sliceLast10, List.drop_append_eq_append_drop, List.drop_drop,
    List.length_append, List.length_drop]
  congr 1
  · congr 1
    omega
  · congr 1
    omega

theorem find?_updateWhereId (users : List User) (userId : String)
    (f : User → User) (hf : ∀ u, (f u).id = u.id) :
    (updateWhereId users userId f).find? (fun u => u.id = userId) =
      (users.find? (fun u => u.id = userId)).map f := by
  induction users with
  | nil => rfl
  | cons u rest ih =>
      simp only [updateWhereId, List.map_cons, List.find?_cons]
      by_cases h : u.id = userId
      · rw [if_pos h]
        simp [hf u, h]
      · rw [if_neg h]
        simp only [decide_eq_false h]
        simpa [updateWhereId] using ih

theorem addConnectionHistory_eq_phases (db : DB) (userId : String)
    (cd : List (String × Json)) (now : Nat) :
    addConnectionHistory db userId cd now =
      match achSnapshot db userId with
      | none => .error "User not found"
      | some u => .ok (achCommit db userId u cd now) := by
  unfold addConnectionHistory achSnapshot achCommit
  cases db.users.find? (fun u => u.id = userId) <;> rfl

/-- The user row as rewritten by one `addConnectionHistory` call computed
from snapshot `u`. -/
def updatedUser (u : User) (cd : List (String × Json)) (now : Nat) : User :=
  { u with connectionHistory := (Json.arr (sliceLast10 (historyList u.connectionHistory ++ [mkEntry cd now]))) }

theorem addConnectionHistory_step (db : DB) (userId : String)
    (cd : List (String × Json)) (now : Nat) (u : User)
    (hu : db.users.find? (fun w => w.id = userId) = some u) :
    ∃ db2, addConnectionHistory db userId cd now = .ok db2 ∧
      db2.users.find? (fun w => w.id = userId) = some (updatedUser u cd now) := by
  refine ⟨achCommit db userId u cd now, ?_, ?_⟩
  · unfold addConnectionHistory achCommit
    rw [hu]
  · simp only [achCommit]
    rw [find?_updateWhereId db.users userId
      (fun w => { w with connectionHistory := (Json.arr (sliceLast10 (historyList u.connectionHistory ++ [mkEntry cd now]))) })
      (fun w => rfl), hu]
    rfl

theorem runHistory_ok (userId : String) (calls : List (List (String × Json) × Nat)) :
    ∀ (db : DB) (u : User) (h0 : List Json),
      db.users.find? (fun w => w.id = userId) = some u →
      u.connectionHistory = Json.arr h0 →
      h0.length ≤ 10 →
      ∃ db2, runHistory db userId calls = .ok db2 ∧
        historyOf db2 userId = Json.arr (sliceLast10 (h0 ++ entriesOf calls)) := by
  induction calls with
  | nil =>
      intro db u h0 hu harr hlen
      refine ⟨db, rfl, ?_⟩
      rw [historyOf, hu]
      show u.connectionHistory = Json.arr (sliceLast10 (h0 ++ entriesOf []))
      rw [harr, entriesOf, List.map_nil, List.append_nil,
        sliceLast10_of_length_le h0 hlen]
  | cons c rest ih =>
      intro db u h0 hu harr hlen
      obtain ⟨db1, hach, hfind1⟩ := addConnectionHistory_step db userId c.1 c.2 u hu
      have harr1 : (updatedUser u c.1 c.2).connectionHistory =
          Json.arr (sliceLast10 (h0 ++ [mkEntry c.1 c.2])) := by
        rw [updatedUser, harr]
        rfl
      obtain ⟨db2, hrun, hhist⟩ := ih db1 _ _ hfind1 harr1 (length_sliceLast10_le _)
      refine ⟨db2, ?_, ?_⟩
      · rw [runHistory, hach]
        exact hrun
      · rw [hhist, sliceLast10_append, List.append_assoc]
        rfl

/-- A one-user store used to instantiate the universally quantified theorems
at concrete inputs. -/
def dbOneUser : DB :=
  { users := [{ id := "u1", walletAddress := "SP1", createdAt := 0, updatedAt := 0,
                connectionHistory := Json.arr [] }] }

/-- Eleven sequential login events with distinct metadata. -/
def calls11 : List (List (String × Json) × Nat) :=
  (List.range 11).map (fun i => ([("seq", Json.num (Int.ofNat i))], i))

/-- C1: every sequence of successful logins recorded via
`addConnectionHistory` keeps `connectionHistory` at no more than 10 entries:
each call appends the metadata-plus-timestamp entry to the end of the
existing history and then truncates to the 10 most recent entries (oldest
dropped first, trimming after appending).  Formally, starting from a stored
array history `h0` of at most 10 entries, after any call sequence the stored
history is exactly the last-10 slice of `h0` followed by the appended
entries in call (insertion) order, hence never exceeds 10 entries; the
11-login instance is exhibited by the witness. -/
theorem connectionHistory_bounded (userId : String)
    (calls : List (List (String × Json) × Nat)) (db : DB) (u : User)
    (h0 : List Json)
    (hu : db.users.find? (fun w => w.id = userId) = some u)
    (harr : u.connectionHistory = Json.arr h0)
    (hlen : h0.length ≤ 10) :
    ∃ db2, runHistory db userId calls = .ok db2 ∧
      historyOf db2 userId = Json.arr (sliceLast10 (h0 ++ entriesOf calls)) ∧
      (sliceLast10 (h0 ++ entriesOf calls)).length ≤ 10 :=
  match runHistory_ok userId calls db u h0 hu harr hlen with
  | ⟨db2, hrun, hhist⟩ => ⟨db2, hrun, hhist, length_sliceLast10_le _⟩

/-- Witness for C1: after 11 sequential successful logins starting from an
empty history, the stored history is the last-10 slice of the 11 appended
entries — the first login's entry is absent and the remaining 10 stand in
insertion order. -/
theorem connectionHistory_bounded_witness :
    (∃ db2, runHistory dbOneUser "u1" calls11 = .ok db2 ∧
      historyOf db2 "u1" = Json.arr (sliceLast10 ([] ++ entriesOf calls11)) ∧
      (sliceLast10 ([] ++ entriesOf calls11)).length ≤ 10) ∧
    sliceLast10 ([] ++ entriesOf calls11) = entriesOf (calls11.drop 1) :=
  ⟨connectionHistory_bounded "u1" calls11 dbOneUser
      { id := "u1", walletAddress := "SP1", createdAt := 0, updatedAt := 0,
        connectionHistory := Json.arr [] } [] rfl rfl (by decide),
    by rfl⟩

/-- Run `addConnectionHistory` as its caller observes the store: on failure
nothing was written, so the store is unchanged. -/
def runACH (db : DB) (userId : String) (cd : List (String × Json)) (now : Nat) : DB :=
  match addConnectionHistory db userId cd now with
  | .ok db2 => db2
  | .error _ => db

/-- C9: `addConnectionHistory` called with a `userId` for which no user
record exists throws "User not found" before performing any write: the
result is exactly that error, and the store visible afterwards is the
unchanged input store. -/
theorem addConnectionHistory_user_not_found (db : DB) (userId : String)
    (cd : List (String × Json)) (now : Nat)
    (h : db.users.find? (fun u => u.id = userId) = none) :
    addConnectionHistory db userId cd now = .error "User not found" ∧
      runACH db userId cd now = db := by
  have he : addConnectionHistory db userId cd now = .error "User not found" := by
    unfold addConnectionHistory
    rw [h]
  exact ⟨he, by rw [runACH, he]⟩

/-- Witness for C9: the empty store has no user "ghost". -/
theorem addConnectionHistory_user_not_found_witness :
    addConnectionHistory {} "ghost" [] 0 = .error "User not found" ∧
      runACH {} "ghost" [] 0 = {} :=
  addConnectionHistory_user_not_found {} "ghost" [] 0 rfl

theorem historyList_eq_nil_of_nonarray (j : Json) (h : ∀ xs, j ≠ Json.arr xs) :
    historyList j = [] := by
  cases j with
  | arr xs => exact absurd rfl (h xs)
  | null => rfl
  | bool b => rfl
  | num n => rfl
  | str s => rfl
  | obj fs => rfl

/-- C10: `addConnectionHistory` is total over malformed stored history —
when the user's persisted `connectionHistory` is any non-array JSON value
the operation does not fail but treats the history as empty, so the updated
stored history is exactly the single newly appended entry. -/
theorem addConnectionHistory_nonarray (db : DB) (userId : String)
    (cd : List (String × Json)) (now : Nat) (u : User)
    (hu : db.users.find? (fun w => w.id = userId) = some u)
    (hna : ∀ xs, u.connectionHistory ≠ Json.arr xs) :
    ∃ db2, addConnectionHistory db userId cd now = .ok db2 ∧
      historyOf db2 userId = Json.arr [mkEntry cd now] := by
  obtain ⟨db2, hach, hfind⟩ := addConnectionHistory_step db userId cd now u hu
  refine ⟨db2, hach, ?_⟩
  rw [historyOf, hfind]
  show (updatedUser u cd now).connectionHistory = Json.arr [mkEntry cd now]
  rw [updatedUser, historyList_eq_nil_of_nonarray u.connectionHistory hna]
  rfl

/-- A store whose single user has a malformed (non-array) stored history. -/
def dbBadHistory : DB :=
  { users := [{ id := "u1", walletAddress := "SP1", createdAt := 0, updatedAt := 0,
                connectionHistory := Json.str "oops" }] }

/-- Witness for C10: a user whose stored history is the JSON string "oops"
still gets exactly one entry appended. -/
theorem addConnectionHistory_nonarray_witness :
    ∃ db2, addConnectionHistory dbBadHistory "u1" [] 7 = .ok db2 ∧
      historyOf db2 "u1" = Json.arr [mkEntry [] 7] :=
  addConnectionHistory_nonarray dbBadHistory "u1" [] 7
    { id := "u1", walletAddress := "SP1", createdAt := 0, updatedAt := 0,
      connectionHistory := Json.str "oops" } rfl
    (by intro xs h; exact Json.noConfusion h)

/-- Input record of src/lib/db/user.ts `createNFT`. -/
structure CreateNFTData where
  name : String
  description : Option String := none
  image : String
  metadata : Json
  ownerId : String
  collectionId : Option String := none
deriving Repr

/-- src/lib/db/user.ts `createNFT`: `prisma.nFT.create` with the schema
defaults (`isMinted` false, no `tokenId`/`contractAddress`/`mintedAt`). -/
def createNFT (db : DB) (d : CreateNFTData) (newId : String) (now : Nat) : DB × NFT :=
  let nft : NFT :=
    { id := newId
      name := d.name
      description := d.description
      image := d.image
      metadata := d.metadata
      ownerId := d.ownerId
      collectionId := d.collectionId
      isMinted := false
      createdAt := now }
  ({ db with nfts := db.nfts ++ [nft] }, nft)

/-- src/lib/db/user.ts `getNFTsByOwner`: `prisma.nFT.findMany` on `ownerId`.
The `orderBy createdAt desc` clause only permutes the returned read-only
list; the presentation ordering is not modelled. -/
def getNFTsByOwner (db : DB) (ownerId : String) : List NFT :=
  db.nfts.filter (fun n => n.ownerId = ownerId)

/-- src/lib/db/user.ts `getNFTById`: `prisma.nFT.findUnique` on `id`. -/
def getNFTById (db : DB) (id : String) : Option NFT :=
  db.nfts.find? (fun n => n.id = id)

/-- src/lib/db/user.ts `updateNFTMintStatus`: `prisma.nFT.update` setting
`isMinted`, `tokenId`, `contractAddress` and `mintedAt`; fails when no NFT
with that id exists. -/
def updateNFTMintStatus (db : DB) (id tokenId contractAddress : String) (now : Nat) :
    Except String DB :=
  match db.nfts.find? (fun n => n.id = id) with
  | none => .error "Record to update not found"
  | some _ =>
      .ok { db with
              nfts := db.nfts.map (fun n =>
                if n.id = id then
                  { n with isMinted := true
                           tokenId := some tokenId
                           contractAddress := some contractAddress
                           mintedAt := some now }
                else n) }

/-- Input record of src/lib/db/user.ts `createCollection`. -/
structure CreateCollectionData where
  name : String
  description : Option String := none
  image : Option String := none
  banner : Option String := none
  isPublic : Bool := true
  ownerId : String
deriving Repr

/-- src/lib/db/user.ts `createCollection`: `prisma.collection.create`. -/
def createCollection (db : DB) (d : CreateCollectionData) (newId : String) (now : Nat) :
    DB × Collection :=
  let c : Collection :=
    { id := newId
      name := d.name
      description := d.description
      image := d.image
      banner := d.banner
      isPublic := d.isPublic
      ownerId := d.ownerId
      createdAt := now }
  ({ db with collections := db.collections ++ [c] }, c)

/-- src/lib/db/user.ts `getCollectionsByOwner` (`orderBy` not modelled, as
for `getNFTsByOwner`). -/
def getCollectionsByOwner (db : DB) (ownerId : String) : List Collection :=
  db.collections.filter (fun c => c.ownerId = ownerId)

/-- src/lib/db/user.ts `getPublicCollections` (`orderBy` not modelled). -/
def getPublicCollections (db : DB) : List Collection :=
  db.collections.filter (fun c => c.isPublic)

/-- Input record of src/lib/db/user.ts `createTransaction`. -/
structure CreateTransactionData where
  txHash : String
  type : String
  status : String
  userId : String
  nftId : Option String := none
  blockHeight : Option Nat := none
deriving Repr

/-- src/lib/db/user.ts `createTransaction`: `prisma.transaction.create`. -/
def createTransaction (db : DB) (d : CreateTransactionData) (now : Nat) : DB :=
  { db with
      transactions := db.transactions ++
        [{ txHash := d.txHash
           type := d.type
           status := d.status
           userId := d.userId
           nftId := d.nftId
           blockHeight := d.blockHeight
           updatedAt := now }] }

/-- src/lib/db/user.ts `updateTransactionStatus`: `prisma.transaction.update`
on `txHash`; fails when no transaction with that hash exists. -/
def updateTransactionStatus (db : DB) (txHash status : String)
    (blockHeight : Option Nat) (now : Nat) : Except String DB :=
  match db.transactions.find? (fun t => t.txHash = txHash) with
  | none => .error "Record to update not found"
  | some _ =>
      .ok { db with
              transactions := db.transactions.map (fun t =>
                if t.txHash = txHash then
                  { t with status := status, blockHeight := blockHeight, updatedAt := now }
                else t) }

/-- The authenticated identity produced by `verifyAuth` (the session
validator in src/lib/auth/middleware, consumed but not defined under src/):
the handlers read its `userId` field.  Handlers are parametrized over
`Option AuthUser`, the value of `await verifyAuth(request)`. -/
structure AuthUser where
  userId : String
  walletAddress : String
deriving Repr

/-- A JSON-serialized optional string. -/
def jsonOfOptStr (s : Option String) : Json :=
  match s with
  | some v => Json.str v
  | none => Json.null

/-- A JSON-serialized optional timestamp. -/
def jsonOfOptNat (n : Option Nat) : Json :=
  match n with
  | some v => Json.str (tsStr v)
  | none => Json.null

/-- JSON serialization of an NFT row, as `NextResponse.json` would emit it. -/
def jsonOfNFT (n : NFT) : Json :=
  Json.obj
    [("id", Json.str n.id), ("name", Json.str n.name),
     ("description", jsonOfOptStr n.description), ("image", Json.str n.image),
     ("metadata", n.metadata), ("ownerId", Json.str n.ownerId),
     ("collectionId", jsonOfOptStr n.collectionId),
     ("isMinted", Json.bool n.isMinted), ("tokenId", jsonOfOptStr n.tokenId),
     ("contractAddress", jsonOfOptStr n.contractAddress),
     ("mintedAt", jsonOfOptNat n.mintedAt),
     ("createdAt", Json.str (tsStr n.createdAt))]

/-- JSON serialization of a collection row. -/
def jsonOfCollection (c : Collection) : Json :=
  Json.obj
    [("id", Json.str c.id), ("name", Json.str c.name),
     ("description", jsonOfOptStr c.description), ("image", jsonOfOptStr c.image),
     ("banner", jsonOfOptStr c.banner), ("isPublic", Json.bool c.isPublic),
     ("ownerId", Json.str c.ownerId), ("createdAt", Json.str (tsStr c.createdAt))]

/-- The `{ error: msg }` body shape shared by every error response. -/
def errBody (msg : String) : Json := Json.obj [("error", Json.str msg)]

/-- Observable outcome of one route-handler invocation: HTTP status, JSON
body, the store after the request, and the repository calls the handler
performed (in order) — the last component instruments which src/lib/db/user.ts
functions ran, so "no repository read or write was performed" is the
statement `repoOps = []`. -/
structure HttpResult where
  status : Nat
  body : Json
  db : DB
  repoOps : List String
deriving Repr

/-- src/app/api/nfts/route.ts `GET`: 401 before any repository call when
`verifyAuth` yields no user, otherwise the owner's NFTs. -/
def nftsGET (auth : Option AuthUser) (db : DB) : HttpResult :=
  match auth with
  | none => { status := 401, body := errBody "Unauthorized", db := db, repoOps := [] }
  | some user =>
      { status := 200
        body := Json.obj [("nfts", Json.arr ((getNFTsByOwner db user.userId).map jsonOfNFT))]
        db := db
        repoOps := ["getNFTsByOwner"] }

/-- The body of POST /api/nfts after zod validation (`createNFTSchema`);
the handler checks `verifyAuth` before reading or validating the body, so a
request that fails authentication never reaches parsing. -/
structure CreateNFTRequest where
  name : String
  description : Option String := none
  image : String
  metadata : List (String × Json)
  collectionId : Option String := none
deriving Repr

/-- src/app/api/nfts/route.ts `POST`: 401 before any repository call when
`verifyAuth` yields no user, otherwise create the NFT owned by the
authenticated user. -/
def nftsPOST (auth : Option AuthUser) (req : CreateNFTRequest) (db : DB)
    (newId : String) (now : Nat) : HttpResult :=
  match auth with
  | none => { status := 401, body := errBody "Unauthorized", db := db, repoOps := [] }
  | some user =>
      let r := createNFT db
        { name := req.name
          description := req.description
          image := req.image
          metadata := Json.obj req.metadata
          ownerId := user.userId
          collectionId := req.collectionId } newId now
      { status := 201
        body := Json.obj [("nft", jsonOfNFT r.2)]
        db := r.1
        repoOps := ["createNFT"] }

/-- src/app/api/collections/route.ts `GET`: with `?public=true` the public
collections are served without any authentication check; otherwise 401
before any repository call when `verifyAuth` yields no user, else the
authenticated owner's collections. -/
def collectionsGET (publicOnly : Bool) (auth : Option AuthUser) (db : DB) : HttpResult :=
  if publicOnly then
    { status := 200
      body := Json.obj [("collections", Json.arr ((getPublicCollections db).map jsonOfCollection))]
      db := db
      repoOps := ["getPublicCollections"] }
  else
    match auth with
    | none => { status := 401, body := errBody "Unauthorized", db := db, repoOps := [] }
    | some user =>
        { status := 200
          body := Json.obj [("collections", Json.arr ((getCollectionsByOwner db user.userId).map jsonOfCollection))]
          db := db
          repoOps := ["getCollectionsByOwner"] }

/-- The body of POST /api/collections after zod validation
(`createCollectionSchema`, `isPublic` defaulted to true by the schema). -/
structure CreateCollectionRequest where
  name : String
  description : Option String := none
  image : Option String := none
  banner : Option String := none
  isPublic : Bool := true
deriving Repr

/-- src/app/api/collections/route.ts `POST`: 401 before any repository call
when `verifyAuth` yields no user, otherwise create the collection owned by
the authenticated user. -/
def collectionsPOST (auth : Option AuthUser) (req : CreateCollectionRequest)
    (db : DB) (newId : String) (now : Nat) : HttpResult :=
  match auth with
  | none => { status := 401, body := errBody "Unauthorized", db := db, repoOps := [] }
  | some user =>
      let r := createCollection db
        { name := req.name
          description := req.description
          image := req.image
          banner := req.banner
          isPublic := req.isPublic
          ownerId := user.userId } newId now
      { status := 201
        body := Json.obj [("collection", jsonOfCollection r.2)]
        db := r.1
        repoOps := ["createCollection"] }

/-- The body of POST /api/nfts/mint after zod validation (`mintNFTSchema`). -/
structure MintRequest where
  nftId : String
  txHash : String
  contractAddress : String
  tokenId : String
deriving Repr

/-- src/app/api/nfts/mint/route.ts `POST`: 401 when `verifyAuth` yields no
user; 404 when the NFT does not exist; 403 when it is not owned by the
authenticated user; 400 when it is already minted — each of these returns
before any write.  Otherwise mark the NFT minted and record a pending mint
transaction.  A thrown repository update (caught by the route's try/catch)
yields 500 with nothing written. -/
def mintPOST (auth : Option AuthUser) (req : MintRequest) (db : DB) (now : Nat) :
    HttpResult :=
  match auth with
  | none => { status := 401, body := errBody "Unauthorized", db := db, repoOps := [] }
  | some user =>
      match getNFTById db req.nftId with
      | none =>
          { status := 404, body := errBody "NFT not found", db := db,
            repoOps := ["getNFTById"] }
      | some nft =>
          if nft.ownerId ≠ user.userId then
            { status := 403, body := errBody "Unauthorized to mint this NFT", db := db,
              repoOps := ["getNFTById"] }
          else if nft.isMinted then
            { status := 400, body := errBody "NFT is already minted", db := db,
              repoOps := ["getNFTById"] }
          else
            match updateNFTMintStatus db req.nftId req.tokenId req.contractAddress now with
            | .error _ =>
                { status := 500, body := errBody "Internal server error", db := db,
                  repoOps := ["getNFTById", "updateNFTMintStatus"] }
            | .ok db2 =>
                let db3 := createTransaction db2
                  { txHash := req.txHash, type := "mint", status := "pending",
                    userId := user.userId, nftId := some req.nftId } now
                { status := 200
                  body := Json.obj [("nft",
                    match getNFTById db2 req.nftId with
                    | some n => jsonOfNFT n
                    | none => Json.null)]
                  db := db3
                  repoOps := ["getNFTById", "updateNFTMintStatus", "createTransaction"] }

/-- C6: for every request to a protected route (GET/POST /api/nfts,
POST /api/nfts/mint, GET /api/collections without `public=true`,
POST /api/collections) in which credential validation yields no
authenticated identity, the response has status 401 with an error body, and
no repository read or write is performed on behalf of the request: the
store is returned unchanged and the handler's repository-call trace is
empty. -/
theorem unauthenticated_requests_rejected (db : DB) (reqN : CreateNFTRequest)
    (reqC : CreateCollectionRequest) (reqM : MintRequest) (newId : String) (now : Nat) :
    nftsGET none db =
      { status := 401, body := errBody "Unauthorized", db := db, repoOps := [] } ∧
    nftsPOST none reqN db newId now =
      { status := 401, body := errBody "Unauthorized", db := db, repoOps := [] } ∧
    collectionsGET false none db =
      { status := 401, body := errBody "Unauthorized", db := db, repoOps := [] } ∧
    collectionsPOST none reqC db newId now =
      { status := 401, body := errBody "Unauthorized", db := db, repoOps := [] } ∧
    mintPOST none reqM db now =
      { status := 401, body := errBody "Unauthorized", db := db, repoOps := [] } :=
  ⟨rfl, rfl, rfl, rfl, rfl⟩

/-- C7: an authenticated POST /api/nfts/mint request against a nonexistent
NFT yields 404; against an NFT whose `ownerId` differs from the
authenticated `userId` yields 403 (authenticated but not entitled); against
the requester's own but already-minted NFT yields 400 — and in each case
the store (mint status, tokenId, contractAddress, transaction records) is
returned unchanged, the handler having performed only the `getNFTById`
read. -/
theorem mint_error_paths (db : DB) (u : AuthUser) (req : MintRequest) (now : Nat) :
    (getNFTById db req.nftId = none →
      mintPOST (some u) req db now =
        { status := 404, body := errBody "NFT not found", db := db,
          repoOps := ["getNFTById"] }) ∧
    (∀ nft, getNFTById db req.nftId = some nft → nft.ownerId ≠ u.userId →
      mintPOST (some u) req db now =
        { status := 403, body := errBody "Unauthorized to mint this NFT", db := db,
          repoOps := ["getNFTById"] }) ∧
    (∀ nft, getNFTById db req.nftId = some nft → nft.ownerId = u.userId →
      nft.isMinted = true →
      mintPOST (some u) req db now =
        { status := 400, body := errBody "NFT is already minted", db := db,
          repoOps := ["getNFTById"] }) := by
  refine ⟨?_, ?_, ?_⟩
  · intro h
    unfold mintPOST
    rw [h]
  · intro nft h hne
    unfold mintPOST
    rw [h]
    simp only [ne_eq, hne, not_false_eq_true, if_true]
  · intro nft h heq hm
    unfold mintPOST
    rw [h]
    simp [heq, hm]

/-- An unminted NFT owned by "owner1". -/
def nftPlain : NFT :=
  { id := "n1", name := "art", image := "img", metadata := Json.obj [],
    ownerId := "owner1", createdAt := 0 }

/-- A store with an NFT owned by someone else and an already-minted NFT
owned by the requester "me". -/
def dbMint : DB :=
  { nfts := [nftPlain, { nftPlain with id := "n2", ownerId := "me", isMinted := true }] }

/-- A mint request for the given NFT id. -/
def mintReq (i : String) : MintRequest :=
  { nftId := i, txHash := "h", contractAddress := "c", tokenId := "t" }

/-- Witness for C7: requester "me" gets 404 on a nonexistent NFT, 403 on
another owner's NFT, and 400 on their own already-minted NFT, with the
store unchanged each time. -/
theorem mint_error_paths_witness :
    mintPOST (some ⟨"me", "SP9"⟩) (mintReq "nope") dbMint 3 =
      { status := 404, body := errBody "NFT not found", db := dbMint,
        repoOps := ["getNFTById"] } ∧
    mintPOST (some ⟨"me", "SP9"⟩) (mintReq "n1") dbMint 3 =
      { status := 403, body := errBody "Unauthorized to mint this NFT", db := dbMint,
        repoOps := ["getNFTById"] } ∧
    mintPOST (some ⟨"me", "SP9"⟩) (mintReq "n2") dbMint 3 =
      { status := 400, body := errBody "NFT is already minted", db := dbMint,
        repoOps := ["getNFTById"] } :=
  ⟨(mint_error_paths dbMint ⟨"me", "SP9"⟩ (mintReq "nope") 3).1 rfl,
   (mint_error_paths dbMint ⟨"me", "SP9"⟩ (mintReq "n1") 3).2.1 nftPlain rfl
     (by decide),
   (mint_error_paths dbMint ⟨"me", "SP9"⟩ (mintReq "n2") 3).2.2
     { nftPlain with id := "n2", ownerId := "me", isMinted := true } rfl rfl rfl⟩

theorem find?_append_fresh (users : List User) (nu : User) (userId : String)
    (hid : nu.id = userId) (hfresh : ∀ u ∈ users, u.id ≠ userId) :
    (users ++ [nu]).find? (fun w => w.id = userId) = some nu := by
  induction users with
  | nil => simp [List.find?, hid]
  | cons u rest ih =>
      have hne : u.id ≠ userId := hfresh u (List.mem_cons_self u rest)
      simp only [List.cons_append, List.find?_cons, decide_eq_false hne]
      exact ih (fun w hw => hfresh w (List.mem_cons_of_mem u hw))

/-- C8: `createUser` for a wallet address persists a record whose
`connectionHistory` is the empty array and whose `loginCount` is 0 (the
schema default), and returns exactly the pair `{id, walletAddress}` (the
`ClientSessionUser` shape carries no other field); consequently, after the
first `updateUserLogin` of the freshly created user, its `loginCount`
equals 1. -/
theorem createUser_defaults (db : DB) (walletAddress newId : String)
    (now tLogin : Nat) (hfresh : ∀ u ∈ db.users, u.id ≠ newId) :
    (createUser db walletAddress newId now).2 =
      { id := newId, walletAddress := walletAddress } ∧
    historyOf (createUser db walletAddress newId now).1 newId = Json.arr [] ∧
    loginCountOf (createUser db walletAddress newId now).1 newId = 0 ∧
    lastLoginOf (createUser db walletAddress newId now).1 newId = none ∧
    ∃ db2, updateUserLogin (createUser db walletAddress newId now).1 newId tLogin =
        .ok db2 ∧ loginCountOf db2 newId = 1 := by
  have hfind : (createUser db walletAddress newId now).1.users.find?
      (fun w => w.id = newId) = some
        { id := newId, walletAddress := walletAddress, createdAt := now,
          updatedAt := now, lastLoginAt := none, loginCount := 0,
          connectionHistory := Json.arr [] } := by
    exact find?_append_fresh db.users _ newId rfl hfresh
  refine ⟨rfl, ?_, ?_, ?_, ?_⟩
  · rw [historyOf, hfind]
  · rw [loginCountOf, hfind]
  · rw [lastLoginOf, hfind]
  · refine ⟨{ (createUser db walletAddress newId now).1 with users := (
        updateWhereId (createUser db walletAddress newId now).1.users newId
          (fun w => { w with lastLoginAt := some tLogin, loginCount := w.loginCount + 1, updatedAt := tLogin })) },
      ?_, ?_⟩
    · unfold updateUserLogin
      rw [hfind]
    · rw [loginCountOf]
      rw [find?_updateWhereId _ newId
        (fun w => { w with lastLoginAt := some tLogin, loginCount := w.loginCount + 1, updatedAt := tLogin })
        (fun w => rfl), hfind]
      rfl

/-- Witness for C8: creating "u9" in the empty store and logging in once. -/
theorem createUser_defaults_witness :
    (createUser {} "SP77" "u9" 2).2 = { id := "u9", walletAddress := "SP77" } ∧
    historyOf (createUser {} "SP77" "u9" 2).1 "u9" = Json.arr [] ∧
    loginCountOf (createUser {} "SP77" "u9" 2).1 "u9" = 0 ∧
    lastLoginOf (createUser {} "SP77" "u9" 2).1 "u9" = none ∧
    ∃ db2, updateUserLogin (createUser {} "SP77" "u9" 2).1 "u9" 5 = .ok db2 ∧
      loginCountOf db2 "u9" = 1 :=
  createUser_defaults {} "SP77" "u9" 2 5 (by intro u hu; cases hu)

/-- One invocation of a mutating repository function of
src/lib/db/user.ts, with its external inputs. -/
inductive Op where
  | opCreateUser (walletAddress newId : String) (now : Nat)
  | opUpdateUserLogin (userId : String) (now : Nat)
  | opAddConnectionHistory (userId : String) (cd : List (String × Json)) (now : Nat)
  | opCreateNFT (d : CreateNFTData) (newId : String) (now : Nat)
  | opUpdateNFTMintStatus (id tokenId contractAddress : String) (now : Nat)
  | opCreateCollection (d : CreateCollectionData) (newId : String) (now : Nat)
  | opCreateTransaction (d : CreateTransactionData) (now : Nat)
  | opUpdateTransactionStatus (txHash status : String) (blockHeight : Option Nat) (now : Nat)

/-- The store after one repository operation; a failing update (Prisma
throws before writing) leaves the store unchanged. -/
def step (db : DB) (op : Op) : DB :=
  match op with
  | .opCreateUser w i n => (createUser db w i n).1
  | .opUpdateUserLogin u n =>
      match updateUserLogin db u n with
      | .ok d => d
      | .error _ => db
  | .opAddConnectionHistory u cd n => runACH db u cd n
  | .opCreateNFT d i n => (createNFT db d i n).1
  | .opUpdateNFTMintStatus i t c n =>
      match updateNFTMintStatus db i t c n with
      | .ok d => d
      | .error _ => db
  | .opCreateCollection d i n => (createCollection db d i n).1
  | .opCreateTransaction d n => createTransaction db d n
  | .opUpdateTransactionStatus h s b n =>
      match updateTransactionStatus db h s b n with
      | .ok d => d
      | .error _ => db

theorem find?_map_pres (users : List User) (g : User → User) (userId : String)
    (hg : ∀ u, (g u).id = u.id) :
    (users.map g).find? (fun w => w.id = userId) =
      (users.find? (fun w => w.id = userId)).map g := by
  induction users with
  | nil => rfl
  | cons u rest ih =>
      simp only [List.map_cons, List.find?_cons]
      by_cases h : u.id = userId
      · simp [hg u, h]
      · have h2 : (decide ((g u).id = userId)) = false := by
          rw [hg u]
          exact decide_eq_false h
        simp only [decide_eq_false h, h2]
        exact ih

theorem loginCountOf_map_mono (db : DB) (g : User → User) (userId : String)
    (hid : ∀ u, (g u).id = u.id) (hcnt : ∀ u, u.loginCount ≤ (g u).loginCount) :
    loginCountOf db userId ≤ loginCountOf { db with users := db.users.map g } userId := by
  rw [loginCountOf, loginCountOf]
  rw [find?_map_pres db.users g userId hid]
  cases db.users.find? (fun w => w.id = userId) with
  | none => exact Nat.le_refl _
  | some w => exact hcnt w

theorem loginCountOf_mono_createUser (db : DB) (w i : String) (n : Nat)
    (userId : String) :
    loginCountOf db userId ≤ loginCountOf (createUser db w i n).1 userId := by
  simp only [loginCountOf, createUser, List.find?_append]
  cases db.users.find? (fun u => u.id = userId) with
  | none => exact Nat.zero_le _
  | some u => exact Nat.le_refl _

theorem loginCountOf_updateUserLogin (db db2 : DB) (userId uid : String) (n : Nat)
    (h : updateUserLogin db uid n = .ok db2) :
    loginCountOf db userId ≤ loginCountOf db2 userId := by
  unfold updateUserLogin at h
  cases hf : db.users.find? (fun u => u.id = uid) with
  | none => rw [hf] at h; exact absurd h (by simp)
  | some u =>
      rw [hf] at h
      cases h
      exact loginCountOf_map_mono db
        (fun w => if w.id = uid then
          { w with lastLoginAt := some n, loginCount := w.loginCount + 1, updatedAt := n }
          else w)
        userId
        (fun w => by
          by_cases hw : w.id = uid
          · simp only [if_pos hw]
          · simp only [if_neg hw])
        (fun w => by
          by_cases hw : w.id = uid
          · simp only [if_pos hw]
            exact Nat.le_succ _
          · simp only [if_neg hw]
            exact Nat.le_refl _)

theorem loginCountOf_runACH (db : DB) (uid userId : String)
    (cd : List (String × Json)) (n : Nat) :
    loginCountOf db userId ≤ loginCountOf (runACH db uid cd n) userId := by
  rw [runACH]
  cases hf : addConnectionHistory db uid cd n with
  | error e => exact Nat.le_refl _
  | ok db2 =>
      unfold addConnectionHistory at hf
      cases hg : db.users.find? (fun u => u.id = uid) with
      | none => rw [hg] at hf; exact absurd hf (by simp)
      | some u =>
          rw [hg] at hf
          cases hf
          exact loginCountOf_map_mono db
            (fun w => if w.id = uid then
              { w with connectionHistory := (Json.arr (sliceLast10 (historyList u.connectionHistory ++ [mkEntry cd n]))) }
              else w)
            userId
            (fun w => by
              by_cases hw : w.id = uid
              · simp only [if_pos hw]
              · simp only [if_neg hw])
            (fun w => by
              by_cases hw : w.id = uid
              · simp only [if_pos hw]
                exact Nat.le_refl _
              · simp only [if_neg hw]
                exact Nat.le_refl _)

/-- C5: for every existing user, `updateUserLogin` increments that user's
stored `loginCount` by exactly 1 and sets `lastLoginAt` to the supplied
current time; and `loginCount` is monotonically non-decreasing across every
operation of the subsystem — no operation of src/lib/db/user.ts ever
decreases any user's stored count. -/
theorem loginCount_increment_and_monotone :
    (∀ (db : DB) (userId : String) (now : Nat) (u : User),
      db.users.find? (fun w => w.id = userId) = some u →
      ∃ db2, updateUserLogin db userId now = .ok db2 ∧
        loginCountOf db2 userId = loginCountOf db userId + 1 ∧
        lastLoginOf db2 userId = some now) ∧
    (∀ (db : DB) (op : Op) (userId : String),
      loginCountOf db userId ≤ loginCountOf (step db op) userId) := by
  constructor
  · intro db userId now u hu
    refine ⟨{ db with users := (updateWhereId db.users userId
        (fun w => { w with lastLoginAt := some now, loginCount := w.loginCount + 1, updatedAt := now })) },
      ?_, ?_, ?_⟩
    · unfold updateUserLogin
      rw [hu]
    · rw [loginCountOf, loginCountOf]
      show (match (updateWhereId db.users userId _).find? (fun w => w.id = userId) with
            | some w => w.loginCount
            | none => 0) = _
      rw [find?_updateWhereId db.users userId
        (fun w => { w with lastLoginAt := some now, loginCount := w.loginCount + 1, updatedAt := now })
        (fun w => rfl), hu]
      rfl
    · rw [lastLoginOf]
      show (match (updateWhereId db.users userId _).find? (fun w => w.id = userId) with
            | some w => w.lastLoginAt
            | none => none) = _
      rw [find?_updateWhereId db.users userId
        (fun w => { w with lastLoginAt := some now, loginCount := w.loginCount + 1, updatedAt := now })
        (fun w => rfl), hu]
      rfl
  · intro db op userId
    cases op with
    | opCreateUser w i n => exact loginCountOf_mono_createUser db w i n userId
    | opUpdateUserLogin u n =>
        show loginCountOf db userId ≤ loginCountOf
          (match updateUserLogin db u n with | .ok d => d | .error _ => db) userId
        cases h : updateUserLogin db u n with
        | error e => exact Nat.le_refl _
        | ok d => exact loginCountOf_updateUserLogin db d userId u n h
    | opAddConnectionHistory u cd n => exact loginCountOf_runACH db u userId cd n
    | opCreateNFT d i n => exact Nat.le_refl _
    | opUpdateNFTMintStatus i t c n =>
        show loginCountOf db userId ≤ loginCountOf
          (match updateNFTMintStatus db i t c n with | .ok d => d | .error _ => db) userId
        cases h : updateNFTMintStatus db i t c n with
        | error e => exact Nat.le_refl _
        | ok d =>
            unfold updateNFTMintStatus at h
            cases hg : db.nfts.find? (fun m => m.id = i) with
            | none => rw [hg] at h; exact absurd h (by simp)
            | some m =>
                rw [hg] at h
                cases h
                exact Nat.le_refl _
    | opCreateCollection d i n => exact Nat.le_refl _
    | opCreateTransaction d n => exact Nat.le_refl _
    | opUpdateTransactionStatus hsh s b n =>
        show loginCountOf db userId ≤ loginCountOf
          (match updateTransactionStatus db hsh s b n with | .ok d => d | .error _ => db) userId
        cases h : updateTransactionStatus db hsh s b n with
        | error e => exact Nat.le_refl _
        | ok d =>
            unfold updateTransactionStatus at h
            cases hg : db.transactions.find? (fun t => t.txHash = hsh) with
            | none => rw [hg] at h; exact absurd h (by simp)
            | some t =>
                rw [hg] at h
                cases h
                exact Nat.le_refl _

/-- Witness for C5: logging in the sole user of `dbOneUser` takes its count
from 0 to 1, and a sample operation (an NFT creation) does not decrease it. -/
theorem loginCount_increment_and_monotone_witness :
    (∃ db2, updateUserLogin dbOneUser "u1" 4 = .ok db2 ∧
      loginCountOf db2 "u1" = loginCountOf dbOneUser "u1" + 1 ∧
      lastLoginOf db2 "u1" = some 4) ∧
    loginCountOf dbOneUser "u1" ≤
      loginCountOf (step dbOneUser (.opCreateNFT
        { name := "a", image := "i", metadata := Json.obj [], ownerId := "u1" } "n1" 0)) "u1" :=
  ⟨loginCount_increment_and_monotone.1 dbOneUser "u1" 4
      { id := "u1", walletAddress := "SP1", createdAt := 0, updatedAt := 0,
        connectionHistory := Json.arr [] } rfl,
    loginCount_increment_and_monotone.2 dbOneUser (.opCreateNFT
      { name := "a", image := "i", metadata := Json.obj [], ownerId := "u1" } "n1" 0) "u1"⟩

/-- Two concurrent `addConnectionHistory` requests, A then B, for the same
user, under the read/read/write/write interleaving: both `findUnique` reads
observe the initial store, then both `update` writes land in order.  Each
request performs exactly the source's two storage calls (`achSnapshot` then
`achCommit`, see `addConnectionHistory_eq_phases`); only the interleaving
of the two independent requests is chosen.  Returns `none` when a snapshot
fails (user absent). -/
def achInterleaved (db : DB) (userId : String)
    (cdA : List (String × Json)) (nowA : Nat)
    (cdB : List (String × Json)) (nowB : Nat) : Option DB :=
  match achSnapshot db userId, achSnapshot db userId with
  | some uA, some uB =>
      some (achCommit (achCommit db userId uA cdA nowA) userId uB cdB nowB)
  | some uA, none => some (achCommit db userId uA cdA nowA)
  | none, some uB => some (achCommit db userId uB cdB nowB)
  | none, none => none

/-- C2 as stated is violated by the code: `addConnectionHistory` is a
separate `findUnique` read followed by a separate `update` write with no
lock, transaction or retry, so under the read/read/write/write interleaving
of two concurrent successful logins for the same user both requests read
the empty history and the second write overwrites the first — the final
stored history holds only request B's entry and request A's entry is lost,
whereas the serialized execution of the same two requests stores both
entries.  (Trimming after merging, and the atomic `loginCount` increment,
are not the failing part; the lost history update is.) -/
theorem concurrent_history_lost_update :
    (achInterleaved dbOneUser "u1" [("a", Json.str "A")] 1 [("b", Json.str "B")] 2).map
        (fun d => historyOf d "u1") =
      some (Json.arr [mkEntry [("b", Json.str "B")] 2]) ∧
    (match runHistory dbOneUser "u1"
        [([("a", Json.str "A")], 1), ([("b", Json.str "B")], 2)] with
     | .ok d => historyOf d "u1"
     | .error _ => Json.null) =
      Json.arr [mkEntry [("a", Json.str "A")] 1, mkEntry [("b", Json.str "B")] 2] :=
  ⟨rfl, rfl⟩

/-- Modelled from the spec: the POST /api/auth/login route (the Login
Recorder orchestration) is not under src/.  Per spec section 4.5 it finds or
creates the user record for the wallet address, then calls
`updateUserLogin`, then `addConnectionHistory` — three separate storage
calls of src/lib/db/user.ts against the shared store, with no enclosing
transaction.  `FailPoint` injects a storage failure at one of the calls:
the failing call writes nothing, while the preceding calls' committed
writes persist (each is an independent Prisma statement). -/
inductive FailPoint where
  | noFailure
  | atUpdateUserLogin
  | atAddConnectionHistory

/-- Modelled from the spec: `recordLogin` — see `FailPoint`.  Returns the
store visible after the request together with `true` iff the whole recorder
sequence committed. -/
def recordLogin (db : DB) (walletAddress newId : String)
    (cd : List (String × Json)) (now : Nat) (fp : FailPoint) : DB × Bool :=
  let found := findUserByWalletAddress db walletAddress
  let db1 := match found with
    | some _ => db
    | none => (createUser db walletAddress newId now).1
  let uid := match found with
    | some u => u.id
    | none => newId
  match fp with
  | .atUpdateUserLogin => (db1, false)
  | .atAddConnectionHistory =>
      (match updateUserLogin db1 uid now with
       | .ok d => d
       | .error _ => db1, false)
  | .noFailure =>
      let db2 := match updateUserLogin db1 uid now with
        | .ok d => d
        | .error _ => db1
      (runACH db2 uid cd now, true)

/-- C3 as stated is violated by the code: the recorder sequence is separate
non-transactional storage calls, so a storage failure at the
`addConnectionHistory` step after `updateUserLogin` has committed leaves
partial login state visible — the request fails, yet the stored
`loginCount` has moved from 0 to 1 and `lastLoginAt` is stamped while no
history entry was appended; the user record is not "entirely unchanged". -/
theorem partial_login_state_visible :
    (recordLogin dbOneUser "SP1" "unused" [("a", Json.str "A")] 9
        .atAddConnectionHistory).2 = false ∧
    loginCountOf (recordLogin dbOneUser "SP1" "unused" [("a", Json.str "A")] 9
        .atAddConnectionHistory).1 "u1" = 1 ∧
    lastLoginOf (recordLogin dbOneUser "SP1" "unused" [("a", Json.str "A")] 9
        .atAddConnectionHistory).1 "u1" = some 9 ∧
    historyOf (recordLogin dbOneUser "SP1" "unused" [("a", Json.str "A")] 9
        .atAddConnectionHistory).1 "u1" = Json.arr [] ∧
    loginCountOf dbOneUser "u1" = 0 ∧
    lastLoginOf dbOneUser "u1" = none :=
  ⟨rfl, rfl, rfl, rfl, rfl, rfl⟩

/-- Modelled from the spec: two concurrent first-login requests for the
same never-seen wallet address, both executing the login route's
find-then-create (the route itself is not under src/; the find and create
are the src/lib/db/user.ts functions).  Under the race both
`findUserByWalletAddress` reads observe the initial store before either
create lands, so both requests proceed to `createUser` — which, per the
documented Prisma schema (no `@unique` on `walletAddress`) and the source
(a plain `prisma.user.create` with no conflict handling), appends
unconditionally. -/
def firstLoginCreateRace (db : DB) (walletAddress idA idB : String)
    (nowA nowB : Nat) : DB :=
  match findUserByWalletAddress db walletAddress,
        findUserByWalletAddress db walletAddress with
  | none, none =>
      (createUser (createUser db walletAddress idA nowA).1 walletAddress idB nowB).1
  | none, some _ => (createUser db walletAddress idA nowA).1
  | some _, none => (createUser db walletAddress idB nowB).1
  | some _, some _ => db

/-- C4 as stated is violated by the code: after two concurrent first-logins
for the never-seen address "SP1", two user records with that wallet address
are persisted — nothing deduplicates them (no unique constraint in the
documented schema, no conflict handling in `createUser`). -/
theorem duplicate_user_records :
    ((firstLoginCreateRace {} "SP1" "uA" "uB" 1 2).users.filter
        (fun u => u.walletAddress = "SP1")).length = 2 :=
  rfl

end CoreMint
